import Mathlib

/-!
Shallow embedding of the room-booking system (Django app `bookings`):
models.py (`Booking`, `BookingHistory`), forms.py (`BookingForm.clean`),
views.py (`check_availability`, `cancel_booking`, `moderate_booking`,
`schedule`).  Instants are modelled as minutes (`Nat`); a timezone-aware
instant's local wall-clock hour/minute are recovered with `hourOf` /
`minuteOf`, and conversion to local time (Django `timezone.localtime`)
adds a fixed offset.
-/

namespace BookingSystem

/-- Booking status, from `Booking.STATUS_CHOICES` in models.py. -/
inductive Status
  | pending
  | approved
  | rejected
  | cancelled
deriving DecidableEq, Repr

/-- The fields of models.py `Booking` that the lifecycle logic reads or
writes (identifier, room and requester references, interval, status,
moderator fields). -/
structure Booking where
  id : Nat
  room : Nat
  requester : Nat
  start_time : Nat
  end_time : Nat
  status : Status
  moderated_by : Option Nat
  moderation_comment : String
deriving DecidableEq, Repr

/-- A `BookingHistory` row: booking reference, acting user, action and the
JSON `details` payload (modelled as key/value pairs). -/
structure HistoryEntry where
  booking : Nat
  user : Option Nat
  action : String
  details : List (String × String)
deriving DecidableEq, Repr

/-- The recognized `settings.BOOKING_SETTINGS` keys read by forms.py and
views.py. -/
structure BookingSettings where
  MIN_BOOKING_DURATION : Nat
  MAX_BOOKING_DURATION : Nat
  BOOKING_START_HOUR : Nat
  BOOKING_END_HOUR : Nat
  BOOKING_END_MINUTE : Nat
  MAX_ADVANCE_BOOKING_DAYS : Nat
  CANCELLATION_DEADLINE_HOURS : Nat
deriving DecidableEq, Repr

/-- Modelled from the spec: the default configuration values of §6
(`workStartHour` 7, `workEndHour`/`workEndMinute` 16:30,
`minDurationMinutes` 30, `maxDurationMinutes` 480); the project's
settings.py itself is not under src/. -/
def defaultSettings : BookingSettings :=
  { MIN_BOOKING_DURATION := 30
    MAX_BOOKING_DURATION := 480
    BOOKING_START_HOUR := 7
    BOOKING_END_HOUR := 16
    BOOKING_END_MINUTE := 30
    MAX_ADVANCE_BOOKING_DAYS := 30
    CANCELLATION_DEADLINE_HOURS := 2 }

/-- Wall-clock hour of an instant measured in minutes (Python
`datetime.hour`). -/
def hourOf (t : Nat) : Nat := t / 60 % 24

/-- Wall-clock minute of an instant measured in minutes (Python
`datetime.minute`). -/
def minuteOf (t : Nat) : Nat := t % 60

/-- The Django queryset overlap condition used throughout views.py and
forms.py: `start_time__lt=end, end_time__gt=start` (half-open overlap). -/
def overlapsInterval (b : Booking) (s e : Nat) : Bool :=
  b.start_time < e && b.end_time > s

/-- The queryset `Booking.objects.filter(room=…, status__in=…, start_time__lt=…,
end_time__gt=…)` as a list filter (membership only; ordering is applied
separately where a view relies on it). -/
def findConflicts (bookings : List Booking) (room : Nat) (s e : Nat)
    (statuses : List Status) : List Booking :=
  bookings.filter fun b =>
    b.room == room && statuses.contains b.status && overlapsInterval b s e

/-- The error taxonomy of spec §7 (only the kinds the embedded code can
raise). `ConflictDetected` carries the conflicting booking set. -/
inductive BookingError
  | PastDate
  | InvalidInterval
  | DurationOutOfRange
  | OutsideWorkingHours
  | ConflictDetected (conflicts : List Booking)
  | InvalidTransition
  | MissingRejectionComment
  | CancellationWindowClosed
  | NotFound
deriving DecidableEq, Repr

/-- Embeds `BookingForm.clean` (forms.py lines 180-225): the validation run at
creation, with the checks in the code's order — past date, then
end-after-start, then min/max duration, then working hours, then the
conflict query over statuses pending and approved. -/
def clean (cfg : BookingSettings) (now : Nat) (bookings : List Booking)
    (room : Nat) (start_time end_time : Nat) : Except BookingError Unit :=
  if start_time < now then
    .error .PastDate
  else if start_time ≥ end_time then
    .error .InvalidInterval
  else if end_time - start_time < cfg.MIN_BOOKING_DURATION then
    .error .DurationOutOfRange
  else if end_time - start_time > cfg.MAX_BOOKING_DURATION then
    .error .DurationOutOfRange
  else if hourOf start_time < cfg.BOOKING_START_HOUR then
    .error .OutsideWorkingHours
  else if hourOf end_time > cfg.BOOKING_END_HOUR ∨
      (hourOf end_time = cfg.BOOKING_END_HOUR ∧
        minuteOf end_time > cfg.BOOKING_END_MINUTE) then
    .error .OutsideWorkingHours
  else
    let conflicting :=
      findConflicts bookings room start_time end_time
        [Status.pending, Status.approved]
    if conflicting.isEmpty then .ok () else .error (.ConflictDetected conflicting)

/-- Embeds `Booking.is_within_working_hours` (models.py lines 117-128): the pure
working-hours check with the hardcoded 7 / 16:30 window. -/
def is_within_working_hours (start_time end_time : Nat) : Bool :=
  let start_hour := hourOf start_time
  let end_hour := hourOf end_time
  let end_minute := minuteOf end_time
  if start_hour < 7 then false
  else if end_hour > 16 then false
  else if end_hour == 16 && end_minute > 30 then false
  else true

/-- Insert a booking into a list that is already ordered so that the
result stays ordered for `le` (helper for modelling queryset `ORDER BY`). -/
def insertOrd (le : Booking → Booking → Bool) (b : Booking) :
    List Booking → List Booking
  | [] => [b]
  | c :: cs => if le b c then b :: c :: cs else c :: insertOrd le b cs

/-- Insertion sort for `le` (models the ordering a queryset applies,
either an explicit `order_by` or the model's `Meta.ordering`). -/
def sortOrd (le : Booking → Booking → Bool) : List Booking → List Booking
  | [] => []
  | b :: bs => insertOrd le b (sortOrd le bs)

/-- Ascending start time: `order_by('start_time')`. -/
def byStartAsc (x y : Booking) : Bool := x.start_time ≤ y.start_time

/-- Descending start time: the `Booking.Meta.ordering` default
`['-start_time']` (models.py line 141), applied by Django to every
`Booking` queryset that has no explicit `order_by`. -/
def byStartDesc (x y : Booking) : Bool := y.start_time ≤ x.start_time

/-- The conflict display query of `moderate_booking` (views.py lines
452-457 for the existence check and 464-469 / 518-523 for the displayed
set): approved bookings of the same room overlapping the interval,
excluding the moderated booking's id, in the model's default
`-start_time` order. -/
def conflictsQuery (bookings : List Booking) (room : Nat) (s e : Nat)
    (excludeId : Nat) : List Booking :=
  sortOrd byStartDesc
    ((findConflicts bookings room s e [Status.approved]).filter
      fun b => b.id != excludeId)

/-- The JSON response of `check_availability` (views.py lines 155-234):
the fields the availability logic computes. -/
structure AvailabilityResponse where
  available : Bool
  time_valid : Bool
  conflicting : Bool
deriving DecidableEq, Repr

/-- Embeds `check_availability` (views.py lines 155-234): past dates answer
unavailable at once; otherwise `time_valid` records the working-hours and
duration checks, `conflicting` is an overlap test against approved
bookings only, and `available` is their conjunction. -/
def check_availability (cfg : BookingSettings) (now : Nat)
    (bookings : List Booking) (room : Nat) (start_time end_time : Nat) :
    AvailabilityResponse :=
  if start_time < now then
    { available := false, time_valid := false, conflicting := false }
  else
    let tvHours : Bool :=
      if hourOf start_time < cfg.BOOKING_START_HOUR then false
      else if hourOf end_time > cfg.BOOKING_END_HOUR ∨
          (hourOf end_time = cfg.BOOKING_END_HOUR ∧
            minuteOf end_time > cfg.BOOKING_END_MINUTE) then false
      else true
    let tvMin : Bool :=
      if end_time - start_time < cfg.MIN_BOOKING_DURATION then false else tvHours
    let time_valid : Bool :=
      if end_time - start_time > cfg.MAX_BOOKING_DURATION then false else tvMin
    let conflicting :=
      !(findConflicts bookings room start_time end_time
          [Status.approved]).isEmpty
    { available := !conflicting && time_valid
      time_valid := time_valid
      conflicting := conflicting }

/-- The persistent state the views mutate: the booking table and the
append-only `BookingHistory` table (most recent first, matching its
`-timestamp` Meta ordering). -/
structure SystemState where
  bookings : List Booking
  history : List HistoryEntry
deriving DecidableEq, Repr

/-- Saving a modified booking row: replace the row with the same id. -/
def saveBooking (bookings : List Booking) (b : Booking) : List Booking :=
  bookings.map fun c => if c.id == b.id then b else c

/-- Render `Status` the way the code stores it in history details. -/
def statusStr : Status → String
  | .pending => "pending"
  | .approved => "approved"
  | .rejected => "rejected"
  | .cancelled => "cancelled"

/-- Embeds `cancel_booking` (views.py lines 360-390), POST path: look up the
booking by id and requester (404 otherwise), refuse statuses outside
pending/approved, enforce the cancellation deadline for approved
bookings, then set status cancelled and append a history entry. The
state is returned unchanged alongside any error. -/
def cancel_booking (cfg : BookingSettings) (now : Nat) (st : SystemState)
    (booking_id : Nat) (user : Nat) : SystemState × Option BookingError :=
  match st.bookings.find? (fun b => b.id == booking_id && b.requester == user) with
  | none => (st, some .NotFound)
  | some booking =>
    if !(booking.status == .pending || booking.status == .approved) then
      (st, some .InvalidTransition)
    else if booking.status == .approved &&
        booking.start_time < now + 60 * cfg.CANCELLATION_DEADLINE_HOURS then
      (st, some .CancellationWindowClosed)
    else
      let old_status := booking.status
      let cancelled := { booking with status := .cancelled }
      ({ bookings := saveBooking st.bookings cancelled
         history :=
           { booking := booking.id, user := some user, action := "cancelled"
             details := [("old_status", statusStr old_status)] } :: st.history },
        none)

/-- The moderation action chosen on `ModerationForm`. -/
inductive ModAction
  | approve
  | reject
deriving DecidableEq, Repr

/-- Embeds `moderate_booking` (views.py lines 439-513), POST path: the booking
is fetched with `status='pending'` (404 otherwise).  Approve first runs
the conflict existence check against approved bookings of the room, then
the past-date check, then saves status approved; reject requires a
non-empty comment and saves status rejected.  Both successful branches
set the moderator fields and append one history entry.  On any error the
state is returned unchanged. -/
def moderate_booking (now : Nat) (st : SystemState) (booking_id : Nat)
    (moderator : Nat) (action : ModAction) (comment : String) :
    SystemState × Option BookingError :=
  match st.bookings.find? (fun b => b.id == booking_id && b.status == Status.pending) with
  | none => (st, some .NotFound)
  | some booking =>
    match action with
    | .approve =>
      let conflicting :=
        !(findConflicts st.bookings booking.room booking.start_time
            booking.end_time [Status.approved]).isEmpty
      if conflicting then
        (st, some (.ConflictDetected
          (conflictsQuery st.bookings booking.room booking.start_time
            booking.end_time booking.id)))
      else if booking.start_time < now then
        (st, some .PastDate)
      else
        let approvedBooking :=
          { booking with
              status := .approved
              moderated_by := some moderator
              moderation_comment := comment }
        ({ bookings := saveBooking st.bookings approvedBooking
           history :=
             { booking := booking.id, user := some moderator
               action := "approve", details := [("comment", comment)] }
             :: st.history },
          none)
    | .reject =>
      if comment == "" then
        (st, some .MissingRejectionComment)
      else
        let rejectedBooking :=
          { booking with
              status := .rejected
              moderated_by := some moderator
              moderation_comment := comment }
        ({ bookings := saveBooking st.bookings rejectedBooking
           history :=
             { booking := booking.id, user := some moderator
               action := "reject", details := [("comment", comment)] }
             :: st.history },
          none)

/-- One cell of the schedule grid: a room and the bookings shown for it
in the enclosing hour row (`hour_data` entries in views.py). -/
structure HourData where
  room : Nat
  bookings : List Booking
deriving DecidableEq, Repr

/-- One row of the schedule grid (`timeline` entries in views.py). -/
structure TimelineEntry where
  hour : Nat
  data : List HourData
deriving DecidableEq, Repr

/-- The day query of `schedule` (views.py lines 756-763): approved
bookings whose start lies in the selected day, optionally restricted to
one room, ordered by start time. -/
def dayBookings (bookings : List Booking) (dayStart dayEnd : Nat)
    (roomFilter : Option Nat) : List Booking :=
  sortOrd byStartAsc
    ((bookings.filter fun b =>
        b.status == Status.approved &&
        dayStart ≤ b.start_time && b.start_time ≤ dayEnd).filter
      fun b => match roomFilter with
        | none => true
        | some r => b.room == r)

/-- The bucketing loop of `schedule` (views.py lines 768-801): one row
per local hour 7..16, one cell per active room (given by id), holding
the day's bookings of that room whose start converted to local time
(modelled as adding the fixed offset `tz` in minutes) falls in that
hour. -/
def scheduleTimeline (tz : Nat) (bookings : List Booking) (rooms : List Nat)
    (dayStart dayEnd : Nat) (roomFilter : Option Nat) : List TimelineEntry :=
  (List.range' 7 10).map fun hour =>
    { hour := hour
      data := rooms.map fun room =>
        { room := room
          bookings :=
            (dayBookings bookings dayStart dayEnd roomFilter).filter fun b =>
              b.room == room && hourOf (b.start_time + tz) == hour } }

/-- A booking appears in the bucket for `hour` when some row of the
timeline with that hour has a cell listing it. -/
def appearsInBucket (tl : List TimelineEntry) (hour : Nat) (b : Booking) : Prop :=
  ∃ entry ∈ tl, entry.hour = hour ∧ ∃ hd ∈ entry.data, b ∈ hd.bookings

theorem mem_insertOrd (le : Booking → Booking → Bool) (b a : Booking)
    (l : List Booking) : a ∈ insertOrd le b l ↔ a = b ∨ a ∈ l := by
  induction l with
  | nil => simp [insertOrd]
  | cons c cs ih =>
    by_cases h : le b c
    · simp [insertOrd, h]
    · simp only [insertOrd, if_neg h, List.mem_cons, ih]
      tauto

theorem mem_sortOrd (le : Booking → Booking → Bool) (a : Booking)
    (l : List Booking) : a ∈ sortOrd le l ↔ a ∈ l := by
  induction l with
  | nil => simp [sortOrd]
  | cons b bs ih => simp [sortOrd, mem_insertOrd, ih]

theorem pairwise_insertOrd (le : Booking → Booking → Bool)
    (htot : ∀ x y, le x y = true ∨ le y x = true)
    (htrans : ∀ x y z, le x y = true → le y z = true → le x z = true)
    (b : Booking) (l : List Booking)
    (hl : l.Pairwise fun x y => le x y = true) :
    (insertOrd le b l).Pairwise fun x y => le x y = true := by
  induction l with
  | nil => simp [insertOrd]
  | cons c cs ih =>
    rcases List.pairwise_cons.mp hl with ⟨hc, hcs⟩
    by_cases h : le b c
    · rw [insertOrd, if_pos h]
      refine List.pairwise_cons.mpr ⟨?_, hl⟩
      intro x hx
      rcases List.mem_cons.mp hx with rfl | hx
      · exact h
      · exact htrans b c x h (hc x hx)
    · rw [insertOrd, if_neg h]
      refine List.pairwise_cons.mpr ⟨?_, ih hcs⟩
      intro x hx
      rcases (mem_insertOrd le b x cs).mp hx with hxb | hx
      · subst hxb
        rcases htot x c with hbc | hcb
        · exact absurd hbc h
        · exact hcb
      · exact hc x hx


theorem pairwise_sortOrd (le : Booking → Booking → Bool)
    (htot : ∀ x y, le x y = true ∨ le y x = true)
    (htrans : ∀ x y z, le x y = true → le y z = true → le x z = true)
    (l : List Booking) :
    (sortOrd le l).Pairwise fun x y => le x y = true := by
  induction l with
  | nil => simp [sortOrd]
  | cons b bs ih => exact pairwise_insertOrd le htot htrans b (sortOrd le bs) ih

theorem mem_findConflicts (bookings : List Booking) (room s e : Nat)
    (statuses : List Status) (b : Booking) :
    b ∈ findConflicts bookings room s e statuses ↔
      b ∈ bookings ∧ b.room = room ∧ b.status ∈ statuses ∧
        b.start_time < e ∧ s < b.end_time := by
  simp only [findConflicts, overlapsInterval, List.mem_filter, Bool.and_eq_true,
    beq_iff_eq, decide_eq_true_eq, List.contains_iff_exists_mem_beq]
  aesop

theorem findConflicts_ne_nil_iff (bookings : List Booking) (room s e : Nat)
    (statuses : List Status) :
    findConflicts bookings room s e statuses ≠ [] ↔
      ∃ b ∈ bookings, b.room = room ∧ b.status ∈ statuses ∧
        b.start_time < e ∧ s < b.end_time := by
  rw [Ne, List.eq_nil_iff_forall_not_mem]
  push_neg
  constructor
  · rintro ⟨b, hb⟩
    exact ⟨b, (mem_findConflicts bookings room s e statuses b).mp hb⟩
  · rintro ⟨b, hb⟩
    exact ⟨b, (mem_findConflicts bookings room s e statuses b).mpr hb⟩

theorem byStartDesc_total (x y : Booking) :
    byStartDesc x y = true ∨ byStartDesc y x = true := by
  simp only [byStartDesc, decide_eq_true_eq]
  omega

theorem byStartDesc_trans (x y z : Booking) :
    byStartDesc x y = true → byStartDesc y z = true → byStartDesc x z = true := by
  simp only [byStartDesc, decide_eq_true_eq]
  omega

/-- Claim C3, counterexample: an interval with end ≤ start whose start is
also in the past is reported as a past-date failure, not InvalidInterval —
the code checks the past date first (forms.py line 189 before line 192). -/
theorem C3_counterexample :
    clean defaultSettings 1000 [] 1 500 400 ≠
      Except.error BookingError.InvalidInterval ∧
    clean defaultSettings 1000 [] 1 500 400 =
      Except.error BookingError.PastDate := by
  refine ⟨fun hc => ?_, rfl⟩
  exact absurd (Except.error.inj hc) (by decide)

/-- Claim C3 (amended): `BookingForm.clean` applies its checks first
failure wins, but in the code's order the past-date check precedes the
end-after-start check: an interval with end ≤ start is reported as
InvalidInterval only when its start is not in the past, and as PastDate
whenever start is in the past. -/
theorem C3_validate_order (cfg : BookingSettings) (now room s e : Nat)
    (bookings : List Booking) (hint : e ≤ s) :
    (now ≤ s →
      clean cfg now bookings room s e =
        Except.error BookingError.InvalidInterval) ∧
    (s < now →
      clean cfg now bookings room s e =
        Except.error BookingError.PastDate) := by
  constructor
  · intro h
    unfold clean
    rw [if_neg (by omega), if_pos (by omega)]
  · intro h
    unfold clean
    rw [if_pos h]

/-- Witness for C3_validate_order at now 100, start 500, end 300. -/
theorem C3_validate_order_witness :
    clean defaultSettings 100 [] 1 500 300 =
      Except.error BookingError.InvalidInterval :=
  (C3_validate_order defaultSettings 100 1 500 300 [] (by decide)).1 (by decide)

/-- Claim C2: for a creation request that reaches the conflict check (the
hypotheses state that the past-date, ordering, duration and working-hours
validations pass), `BookingForm.clean` fails with ConflictDetected exactly
when the half-open predicate s1 < e2 and s2 < e1 matches some pending or
approved booking of the same room; bookings merely touching at an
endpoint are never part of the conflict set. -/
theorem C2_creation_conflict (cfg : BookingSettings) (now room s e : Nat)
    (bookings : List Booking)
    (hpast : now ≤ s) (hord : s < e)
    (hmin : cfg.MIN_BOOKING_DURATION ≤ e - s)
    (hmax : e - s ≤ cfg.MAX_BOOKING_DURATION)
    (hsh : cfg.BOOKING_START_HOUR ≤ hourOf s)
    (heh : hourOf e < cfg.BOOKING_END_HOUR ∨
      (hourOf e = cfg.BOOKING_END_HOUR ∧ minuteOf e ≤ cfg.BOOKING_END_MINUTE)) :
    ((∃ l, clean cfg now bookings room s e =
        Except.error (BookingError.ConflictDetected l)) ↔
      ∃ b ∈ bookings, b.room = room ∧
        (b.status = Status.pending ∨ b.status = Status.approved) ∧
        b.start_time < e ∧ s < b.end_time) ∧
    (clean cfg now bookings room s e = Except.ok () ↔
      ¬ ∃ b ∈ bookings, b.room = room ∧
        (b.status = Status.pending ∨ b.status = Status.approved) ∧
        b.start_time < e ∧ s < b.end_time) ∧
    (∀ b ∈ bookings, (b.end_time ≤ s ∨ e ≤ b.start_time) →
      b ∉ findConflicts bookings room s e [Status.pending, Status.approved]) := by
  set L := findConflicts bookings room s e [Status.pending, Status.approved] with hL
  have hred : clean cfg now bookings room s e =
      if L.isEmpty then Except.ok ()
      else Except.error (BookingError.ConflictDetected L) := by
    unfold clean
    rw [if_neg (by omega), if_neg (by omega), if_neg (by omega),
      if_neg (by omega), if_neg (by omega), if_neg (by omega)]
  have hiff : L ≠ [] ↔
      ∃ b ∈ bookings, b.room = room ∧
        (b.status = Status.pending ∨ b.status = Status.approved) ∧
        b.start_time < e ∧ s < b.end_time := by
    rw [hL, findConflicts_ne_nil_iff]
    simp [List.mem_cons]
  refine ⟨?_, ?_, ?_⟩
  · rw [hred]
    by_cases hc : L.isEmpty
    · rw [if_pos hc]
      constructor
      · rintro ⟨l, h⟩
        exact Except.noConfusion h
      · intro hex
        exact absurd (List.isEmpty_iff.mp hc) (hiff.mpr hex)
    · rw [if_neg hc]
      constructor
      · intro _
        exact hiff.mp (by simpa [List.isEmpty_iff] using hc)
      · intro _
        exact ⟨L, rfl⟩
  · rw [hred]
    by_cases hc : L.isEmpty
    · rw [if_pos hc]
      constructor
      · intro _ hex
        exact absurd (List.isEmpty_iff.mp hc) (hiff.mpr hex)
      · intro _
        rfl
    · rw [if_neg hc]
      constructor
      · intro h
        exact Except.noConfusion h
      · intro hnex
        exact absurd (hiff.mp (by simpa [List.isEmpty_iff] using hc)) hnex
  · intro b hb hsep hmem
    rw [hL, mem_findConflicts] at hmem
    rcases hmem with ⟨-, -, -, h1, h2⟩
    omega

/-- A pending booking 09:00-10:00 on room 1 (Scenario A of the spec). -/
def pendingNine : Booking :=
  { id := 1, room := 1, requester := 1, start_time := 540, end_time := 600,
    status := Status.pending, moderated_by := none, moderation_comment := "" }

/-- Witness for C2_creation_conflict: Scenario A of the spec — a pending
booking 09:00-10:00 on room 1 and a creation request for 09:30-10:30. -/
theorem C2_creation_conflict_witness :
    ((∃ l, clean defaultSettings 0 [pendingNine] 1 570 630 =
        Except.error (BookingError.ConflictDetected l)) ↔
      ∃ b ∈ [pendingNine], b.room = 1 ∧
        (b.status = Status.pending ∨ b.status = Status.approved) ∧
        b.start_time < 630 ∧ 570 < b.end_time) ∧
    (clean defaultSettings 0 [pendingNine] 1 570 630 = Except.ok () ↔
      ¬ ∃ b ∈ [pendingNine], b.room = 1 ∧
        (b.status = Status.pending ∨ b.status = Status.approved) ∧
        b.start_time < 630 ∧ 570 < b.end_time) ∧
    (∀ b ∈ [pendingNine], (b.end_time ≤ 570 ∨ 630 ≤ b.start_time) →
      b ∉ findConflicts [pendingNine] 1 570 630
          [Status.pending, Status.approved]) :=
  C2_creation_conflict defaultSettings 0 1 570 630 [pendingNine] (by decide)
    (by decide) (by decide) (by decide) (by decide) (by decide)

/-- Claim C4: under the default configuration (work start 7, work end
16:30), an interval with local start 07:00 and local end 16:30 passes the
working-hours validation (both boundaries inclusive), while an interval
with local end 16:31 fails it, and `BookingForm.clean` reports
OutsideWorkingHours for it once the earlier checks pass (the second
interval has its own start so the duration checks can be met). -/
theorem C4_working_hours_boundary
    (s e now s2 e2 room : Nat) (bookings : List Booking)
    (hs7 : hourOf s = 7) (he : hourOf e = 16) (hm : minuteOf e = 30)
    (hs2 : defaultSettings.BOOKING_START_HOUR ≤ hourOf s2)
    (he2 : hourOf e2 = 16) (hm2 : minuteOf e2 = 31)
    (hpast : now ≤ s2) (hord : s2 < e2)
    (hmin : defaultSettings.MIN_BOOKING_DURATION ≤ e2 - s2)
    (hmax : e2 - s2 ≤ defaultSettings.MAX_BOOKING_DURATION) :
    is_within_working_hours s e = true ∧
    is_within_working_hours s2 e2 = false ∧
    clean defaultSettings now bookings room s2 e2 =
      Except.error BookingError.OutsideWorkingHours := by
  have h1 : defaultSettings.MIN_BOOKING_DURATION = 30 := rfl
  have h2 : defaultSettings.MAX_BOOKING_DURATION = 480 := rfl
  have h3 : defaultSettings.BOOKING_START_HOUR = 7 := rfl
  have h4 : defaultSettings.BOOKING_END_HOUR = 16 := rfl
  have h5 : defaultSettings.BOOKING_END_MINUTE = 30 := rfl
  refine ⟨?_, ?_, ?_⟩
  · simp [is_within_working_hours, hs7, he, hm]
  · simp [is_within_working_hours, he2, hm2]
  · unfold clean
    rw [if_neg (by omega), if_neg (by omega), if_neg (by omega),
      if_neg (by omega), if_neg (by omega), if_pos (by omega)]

/-- Witness for C4_working_hours_boundary: start 07:00 (minute 420), end
16:30 (minute 990) for the passing interval; start 16:00 (minute 960),
end 16:31 (minute 991) for the failing one. -/
theorem C4_working_hours_boundary_witness :
    is_within_working_hours 420 990 = true ∧
    is_within_working_hours 960 991 = false ∧
    clean defaultSettings 0 [] 1 960 991 =
      Except.error BookingError.OutsideWorkingHours :=
  C4_working_hours_boundary 420 990 0 960 991 1 [] (by decide) (by decide)
    (by decide) (by decide) (by decide) (by decide) (by decide) (by decide)
    (by decide) (by decide)

/-- Claim C10: `check_availability` counts only approved bookings as
conflicts, so an interval that passes the time validations and overlaps
only pending bookings is reported available, while `BookingForm.clean`
rejects the same room and interval with ConflictDetected because creation
also counts pending bookings. -/
theorem C10_availability_vs_creation (cfg : BookingSettings)
    (now room s e : Nat) (bookings : List Booking)
    (hpast : now ≤ s) (hord : s < e)
    (hmin : cfg.MIN_BOOKING_DURATION ≤ e - s)
    (hmax : e - s ≤ cfg.MAX_BOOKING_DURATION)
    (hsh : cfg.BOOKING_START_HOUR ≤ hourOf s)
    (heh : hourOf e < cfg.BOOKING_END_HOUR ∨
      (hourOf e = cfg.BOOKING_END_HOUR ∧ minuteOf e ≤ cfg.BOOKING_END_MINUTE))
    (hnoappr : findConflicts bookings room s e [Status.approved] = [])
    (hpend : findConflicts bookings room s e
      [Status.pending, Status.approved] ≠ []) :
    (check_availability cfg now bookings room s e).available = true ∧
    clean cfg now bookings room s e =
      Except.error (BookingError.ConflictDetected
        (findConflicts bookings room s e [Status.pending, Status.approved])) := by
  constructor
  · simp only [check_availability]
    rw [if_neg (by omega)]
    simp only [hnoappr]
    rw [if_neg (by omega), if_neg (by omega), if_neg (by omega),
      if_neg (by omega)]
    rfl
  · unfold clean
    rw [if_neg (by omega), if_neg (by omega), if_neg (by omega),
      if_neg (by omega), if_neg (by omega), if_neg (by omega),
      if_neg (by simpa [List.isEmpty_iff] using hpend)]

/-- Witness for C10_availability_vs_creation: room 1 with only the
pending 09:00-10:00 booking; the interval 09:30-10:30 is reported
available yet creation is rejected with ConflictDetected. -/
theorem C10_availability_vs_creation_witness :
    (check_availability defaultSettings 0 [pendingNine] 1 570 630).available =
      true ∧
    clean defaultSettings 0 [pendingNine] 1 570 630 =
      Except.error (BookingError.ConflictDetected
        (findConflicts [pendingNine] 1 570 630
          [Status.pending, Status.approved])) :=
  C10_availability_vs_creation defaultSettings 0 1 570 630 [pendingNine]
    (by decide) (by decide) (by decide) (by decide) (by decide) (by decide)
    (by decide) (by decide)

/-- Claim C1: approval of a pending booking checks conflicts only against
approved bookings of the same room — when an overlapping approved booking
exists, `moderate_booking` fails with ConflictDetected carrying the
conflicting set for display and leaves the state (hence the pending
status) unchanged; when no approved booking overlaps, overlapping pending
bookings do not block and the approval succeeds (for a start not in the
past). -/
theorem C1_approve_conflicts (now : Nat) (st : SystemState)
    (booking_id moderator : Nat) (comment : String) (bk : Booking)
    (hfind : st.bookings.find?
      (fun b => b.id == booking_id && b.status == Status.pending) = some bk) :
    bk.status = Status.pending ∧
    (findConflicts st.bookings bk.room bk.start_time bk.end_time
        [Status.approved] ≠ [] →
      moderate_booking now st booking_id moderator ModAction.approve comment =
        (st, some (BookingError.ConflictDetected
          (conflictsQuery st.bookings bk.room bk.start_time bk.end_time
            bk.id)))) ∧
    (findConflicts st.bookings bk.room bk.start_time bk.end_time
        [Status.approved] = [] → now ≤ bk.start_time →
      (moderate_booking now st booking_id moderator
        ModAction.approve comment).2 = none) := by
  have hpred := List.find?_some hfind
  have hpending : bk.status = Status.pending := by
    simp only [Bool.and_eq_true, beq_iff_eq] at hpred
    exact hpred.2
  refine ⟨hpending, ?_, ?_⟩
  · intro hne
    have hc : (!(findConflicts st.bookings bk.room bk.start_time bk.end_time
        [Status.approved]).isEmpty) = true := by
      simp [List.isEmpty_eq_false, hne]
    simp only [moderate_booking, hfind]
    rw [if_pos hc]
  · intro hnil hnow
    have hc : (!(findConflicts st.bookings bk.room bk.start_time bk.end_time
        [Status.approved]).isEmpty) = false := by
      simp [hnil]
    simp only [moderate_booking, hfind]
    rw [if_neg (by simp [hc]), if_neg (by omega)]

/-- Claim C5: rejecting a pending booking with an empty comment fails
with MissingRejectionComment; the state — bookings and history — is
returned unchanged, so the booking stays pending and no history entry is
appended. -/
theorem C5_reject_empty_comment (now : Nat) (st : SystemState)
    (booking_id moderator : Nat) (bk : Booking)
    (hfind : st.bookings.find?
      (fun b => b.id == booking_id && b.status == Status.pending) = some bk) :
    bk.status = Status.pending ∧
    moderate_booking now st booking_id moderator ModAction.reject "" =
      (st, some BookingError.MissingRejectionComment) := by
  have hpred := List.find?_some hfind
  have hpending : bk.status = Status.pending := by
    simp only [Bool.and_eq_true, beq_iff_eq] at hpred
    exact hpred.2
  refine ⟨hpending, ?_⟩
  simp only [moderate_booking, hfind]
  rfl

/-- Claim C6: cancel requires status pending or approved — for a booking
whose status is cancelled or rejected, `cancel_booking` fails with
InvalidTransition and the state is unchanged. -/
theorem C6_cancel_invalid_transition (cfg : BookingSettings) (now : Nat)
    (st : SystemState) (booking_id user : Nat) (bk : Booking)
    (hfind : st.bookings.find?
      (fun b => b.id == booking_id && b.requester == user) = some bk)
    (hst : bk.status = Status.cancelled ∨ bk.status = Status.rejected) :
    cancel_booking cfg now st booking_id user =
      (st, some BookingError.InvalidTransition) := by
  simp only [cancel_booking, hfind]
  rcases hst with h | h <;> rw [if_pos (by simp [h])]

/-- An approved booking 09:30-10:30 on room 1. -/
def approvedHalf : Booking :=
  { id := 2, room := 1, requester := 2, start_time := 570, end_time := 630,
    status := Status.approved, moderated_by := none, moderation_comment := "" }

/-- A cancelled booking on room 1. -/
def cancelledBk : Booking :=
  { id := 3, room := 1, requester := 1, start_time := 700, end_time := 760,
    status := Status.cancelled, moderated_by := none, moderation_comment := "" }

/-- A small store: one pending, one approved (overlapping it), one
cancelled booking; empty history. -/
def demoState : SystemState :=
  { bookings := [pendingNine, approvedHalf, cancelledBk], history := [] }

/-- Witness for C1_approve_conflicts: approving the pending 09:00-10:00
booking while an approved 09:30-10:30 booking exists on the same room
fails with ConflictDetected listing it, and the state is unchanged. -/
theorem C1_approve_conflicts_witness :
    moderate_booking 0 demoState 1 9 ModAction.approve "ok" =
      (demoState, some (BookingError.ConflictDetected [approvedHalf])) := by
  have h := (C1_approve_conflicts 0 demoState 1 9 "ok" pendingNine rfl).2.1
    (by decide)
  rw [h]
  rfl

/-- Witness for C5_reject_empty_comment at the demo store. -/
theorem C5_reject_empty_comment_witness :
    moderate_booking 0 demoState 1 9 ModAction.reject "" =
      (demoState, some BookingError.MissingRejectionComment) :=
  (C5_reject_empty_comment 0 demoState 1 9 pendingNine rfl).2

/-- Witness for C6_cancel_invalid_transition: cancelling the already
cancelled booking fails with InvalidTransition. -/
theorem C6_cancel_invalid_transition_witness :
    cancel_booking defaultSettings 0 demoState 3 1 =
      (demoState, some BookingError.InvalidTransition) :=
  C6_cancel_invalid_transition defaultSettings 0 demoState 3 1 cancelledBk rfl
    (Or.inl rfl)

/-- An approved booking 09:00-10:00 on room 1 (for the ordering
counterexample). -/
def approvedNine : Booking :=
  { id := 4, room := 1, requester := 2, start_time := 540, end_time := 600,
    status := Status.approved, moderated_by := none, moderation_comment := "" }

/-- Claim C7, counterexample: with two overlapping approved bookings
starting 09:00 and 09:30, the conflict query returns the later one first
(Booking.Meta.ordering is the descending `-start_time`), so the result is
not ordered by start time ascending. -/
theorem C7_counterexample :
    conflictsQuery [approvedNine, approvedHalf] 1 550 620 99 =
      [approvedHalf, approvedNine] ∧
    ¬ (conflictsQuery [approvedNine, approvedHalf] 1 550 620 99).Pairwise
        (fun x y => x.start_time ≤ y.start_time) := by
  refine ⟨rfl, ?_⟩
  intro h
  rw [show conflictsQuery [approvedNine, approvedHalf] 1 550 620 99 =
    [approvedHalf, approvedNine] from rfl] at h
  have hle := (List.pairwise_cons.mp h).1 approvedNine (by simp)
  exact absurd hle (by decide)

/-- Claim C7 (amended): the conflict query returns exactly the approved
bookings of the room that overlap the interval under the half-open
predicate (other than the excluded id), ordered by start time descending
— the model's default `-start_time` ordering, not ascending. -/
theorem C7_findOverlaps_ordered (bookings : List Booking)
    (room s e excludeId : Nat) :
    (∀ b, b ∈ conflictsQuery bookings room s e excludeId ↔
      (b ∈ bookings ∧ b.room = room ∧ b.status = Status.approved ∧
        b.start_time < e ∧ s < b.end_time ∧ b.id ≠ excludeId)) ∧
    (conflictsQuery bookings room s e excludeId).Pairwise
      (fun x y => y.start_time ≤ x.start_time) := by
  constructor
  · intro b
    rw [conflictsQuery, mem_sortOrd, List.mem_filter, mem_findConflicts]
    simp only [List.mem_singleton, bne_iff_ne, Ne]
    tauto
  · have h := pairwise_sortOrd byStartDesc byStartDesc_total byStartDesc_trans
      ((findConflicts bookings room s e [Status.approved]).filter
        fun b => b.id != excludeId)
    rw [conflictsQuery]
    exact h.imp fun hxy => by simpa [byStartDesc] using hxy

theorem mem_dayBookings (bookings : List Booking) (dayStart dayEnd : Nat)
    (roomFilter : Option Nat) (b : Booking) :
    b ∈ dayBookings bookings dayStart dayEnd roomFilter ↔
      b ∈ bookings ∧ b.status = Status.approved ∧
        dayStart ≤ b.start_time ∧ b.start_time ≤ dayEnd ∧
        (∀ r, roomFilter = some r → b.room = r) := by
  rw [dayBookings, mem_sortOrd, List.mem_filter, List.mem_filter]
  cases roomFilter with
  | none =>
    simp only [Bool.and_eq_true, beq_iff_eq, decide_eq_true_eq]
    aesop
  | some r0 =>
    simp only [Bool.and_eq_true, beq_iff_eq, decide_eq_true_eq]
    aesop

theorem appearsInBucket_iff (tz : Nat) (bookings : List Booking)
    (rooms : List Nat) (dayStart dayEnd : Nat) (roomFilter : Option Nat)
    (hour : Nat) (b : Booking) :
    appearsInBucket
        (scheduleTimeline tz bookings rooms dayStart dayEnd roomFilter)
        hour b ↔
      hour ∈ List.range' 7 10 ∧ b.room ∈ rooms ∧
        b ∈ dayBookings bookings dayStart dayEnd roomFilter ∧
        hourOf (b.start_time + tz) = hour := by
  unfold appearsInBucket scheduleTimeline
  constructor
  · rintro ⟨entry, hentry, hhour, hd, hhd, hbmem⟩
    rcases List.mem_map.mp hentry with ⟨h0, hh0, rfl⟩
    rcases List.mem_map.mp hhd with ⟨r, hr, rfl⟩
    rw [List.mem_filter] at hbmem
    rcases hbmem with ⟨hday, hcond⟩
    simp only [Bool.and_eq_true, beq_iff_eq] at hcond
    rcases hcond with ⟨hbr, hbh⟩
    have hhour2 : h0 = hour := hhour
    subst hhour2
    rw [← hbr] at hr
    exact ⟨hh0, hr, hday, hbh⟩
  · rintro ⟨hh, hr, hday, hloc⟩
    refine ⟨_, List.mem_map.mpr ⟨hour, hh, rfl⟩, rfl, _,
      List.mem_map.mpr ⟨b.room, hr, rfl⟩, ?_⟩
    rw [List.mem_filter]
    exact ⟨hday, by simp [hloc]⟩

/-- Claim C8: in the schedule projection for a day (optionally filtered
to one room), a booking in scope (in the store, starting inside the day,
on a listed room, matching the filter) appears in the bucket for an hour
of the working range 7..16 exactly when its status is approved and the
local hour of its start (absolute time plus timezone offset) equals the
bucket's hour; a pending, rejected or cancelled booking appears in no
bucket. -/
theorem C8_schedule_only_approved (tz : Nat) (bookings : List Booking)
    (rooms : List Nat) (dayStart dayEnd : Nat) (roomFilter : Option Nat)
    (b : Booking) (hour : Nat)
    (hb : b ∈ bookings)
    (hd1 : dayStart ≤ b.start_time) (hd2 : b.start_time ≤ dayEnd)
    (hroom : b.room ∈ rooms)
    (hfilter : ∀ r, roomFilter = some r → b.room = r)
    (hhour1 : 7 ≤ hour) (hhour2 : hour < 17) :
    (appearsInBucket
        (scheduleTimeline tz bookings rooms dayStart dayEnd roomFilter)
        hour b ↔
      (b.status = Status.approved ∧ hourOf (b.start_time + tz) = hour)) ∧
    (b.status = Status.pending ∨ b.status = Status.rejected ∨
        b.status = Status.cancelled →
      ∀ h2, ¬ appearsInBucket
        (scheduleTimeline tz bookings rooms dayStart dayEnd roomFilter)
        h2 b) := by
  constructor
  · rw [appearsInBucket_iff]
    constructor
    · rintro ⟨-, -, hday, hloc⟩
      exact ⟨((mem_dayBookings bookings dayStart dayEnd roomFilter b).mp
        hday).2.1, hloc⟩
    · rintro ⟨happr, hloc⟩
      refine ⟨?_, hroom, (mem_dayBookings bookings dayStart dayEnd
        roomFilter b).mpr ⟨hb, happr, hd1, hd2, hfilter⟩, hloc⟩
      rw [List.mem_range']
      exact ⟨hour - 7, by omega, by omega⟩
  · rintro hstat h2 happ
    rw [appearsInBucket_iff] at happ
    rcases happ with ⟨-, -, hday, -⟩
    have happr := ((mem_dayBookings bookings dayStart dayEnd roomFilter
      b).mp hday).2.1
    rcases hstat with h | h | h <;> rw [h] at happr <;>
      exact Status.noConfusion happr

/-- Witness for C8_schedule_only_approved: the approved 09:30 booking on
room 1, day window 0..1440, no room filter, offset 0, bucket hour 9. -/
theorem C8_schedule_only_approved_witness :
    (appearsInBucket (scheduleTimeline 0 [approvedHalf] [1] 0 1440 none) 9
        approvedHalf ↔
      (approvedHalf.status = Status.approved ∧
        hourOf (approvedHalf.start_time + 0) = 9)) ∧
    (approvedHalf.status = Status.pending ∨
        approvedHalf.status = Status.rejected ∨
        approvedHalf.status = Status.cancelled →
      ∀ h2, ¬ appearsInBucket
        (scheduleTimeline 0 [approvedHalf] [1] 0 1440 none) h2 approvedHalf) :=
  C8_schedule_only_approved 0 [approvedHalf] [1] 0 1440 none approvedHalf 9
    (by decide) (by decide) (by decide) (by decide)
    (fun r hr => Option.noConfusion hr) (by decide) (by decide)

end BookingSystem
